import Mathlib

/-!
# Verification of the winregnt record decoder and enumeration layer

Shallow embedding of the binary record decoder and the lazy enumeration
iterators of the `winregnt` crate (files `src/api.rs`,
`src/reg_value_iterator.rs`, `src/reg_key_iterator.rs`).

Bytes are modelled as `Nat` (each < 256 on real inputs), 16-bit code units
and 32/64-bit words as `Nat`.  The host is little-endian, so Rust's
`from_ne_bytes` is modelled as little-endian assembly, matching the spec's
"native little-endian" test vectors.  Fallible Rust code returns
`Except`; the one place the source can panic (a slice expression
`&data[8..]` on a short buffer) is modelled with an explicit
`DecodeOutcome.panic` constructor.
-/

namespace WinRegNt

/-- `chunks_exact(2)` over a byte list followed by `u16::from_ne_bytes`
(little-endian host): consecutive byte pairs become 16-bit code units,
a trailing odd byte is dropped. -/
def u16ListOfBytes : List Nat → List Nat
  | a :: b :: rest => (a + 256 * b) :: u16ListOfBytes rest
  | _ => []

/-- `chunks_exact(4).map(u32::from_ne_bytes).next()` on a little-endian host:
the first 4 bytes assembled little-endian, or `none` when fewer than 4
bytes are available. -/
def firstU32Le : List Nat → Option Nat
  | a :: b :: c :: d :: _ => some (a + 256 * (b + 256 * (c + 256 * d)))
  | _ => none

/-- `chunks_exact(4).map(u32::from_be_bytes).next()`: the first 4 bytes
assembled big-endian, or `none` when fewer than 4 bytes are available. -/
def firstU32Be : List Nat → Option Nat
  | a :: b :: c :: d :: _ => some (d + 256 * (c + 256 * (b + 256 * a)))
  | _ => none

/-- `chunks_exact(8).map(u64::from_ne_bytes).next()` on a little-endian host. -/
def firstU64Le : List Nat → Option Nat
  | a :: b :: c :: d :: e :: f :: g :: h :: _ =>
      some (a + 256 * (b + 256 * (c + 256 * (d + 256 *
            (e + 256 * (f + 256 * (g + 256 * h)))))))
  | _ => none

/-- Read one `u32` (native = little-endian) from the front of a byte list,
as `byteorder::ReadBytesExt::read_u32` does on a cursor: fails when fewer
than 4 bytes remain, otherwise returns the word and the rest. -/
def readU32 : List Nat → Option (Nat × List Nat)
  | a :: b :: c :: d :: rest => some (a + 256 * (b + 256 * (c + 256 * d)), rest)
  | _ => none

/-- A little-endian `u32` at byte offset `i` of a buffer, out-of-range bytes
reading as 0; used only under a length guard, mirroring the in-place
`std::ptr::read` of a 5-field `repr(C)` `u32` struct. -/
def le32At (data : List Nat) (i : Nat) : Nat :=
  data.getD i 0 + 256 * (data.getD (i + 1) 0 + 256 *
    (data.getD (i + 2) 0 + 256 * data.getD (i + 3) 0))

/-- The closed `ValueType` tag set from `api.rs`. -/
inductive ValueType
  | REG_NONE
  | REG_SZ
  | REG_EXPAND_SZ
  | REG_BINARY
  | REG_DWORD
  | REG_DWORD_BIG_ENDIAN
  | REG_LINK
  | REG_MULTI_SZ
  | REG_RESOURCE_LIST
  | REG_FULL_RESOURCE_DESCRIPTOR
  | REG_RESOURCE_REQUIREMENTS_LIST
  | REG_QWORD
  deriving DecidableEq, Repr

/-- `impl Into<ValueType> for DWORD` (`api.rs:287-304`): numeric tags 1..11
map to their named tags; every other numeric tag, recognized or not, falls
through to `REG_NONE`. -/
def dwordToValueType (n : Nat) : ValueType :=
  match n with
  | 1 => .REG_SZ
  | 2 => .REG_EXPAND_SZ
  | 3 => .REG_BINARY
  | 4 => .REG_DWORD
  | 5 => .REG_DWORD_BIG_ENDIAN
  | 6 => .REG_LINK
  | 7 => .REG_MULTI_SZ
  | 8 => .REG_RESOURCE_LIST
  | 9 => .REG_FULL_RESOURCE_DESCRIPTOR
  | 10 => .REG_RESOURCE_REQUIREMENTS_LIST
  | 11 => .REG_QWORD
  | _ => .REG_NONE

/-- `KEY_VALUE_FULL_INFORMATION` header fields (`api.rs:226-241`), all
`u32`. -/
structure KeyValueFullInformation where
  title_index : Nat
  value_type : Nat
  data_offset : Nat
  data_length : Nat
  name_length : Nat
  deriving DecidableEq, Repr

/-- `KEY_BASIC_INFORMATION` header (`api.rs:190-200`); the 8-byte timestamp
is zeroed by the decoder and never interpreted, so it is omitted. -/
structure KeyBasicInformation where
  title_index : Nat
  name_length : Nat
  deriving DecidableEq, Repr

/-- Error kinds from `error.rs` that the decoding paths can produce. -/
inductive RegValueError
  | ConvertName
  | ValueData
  | SmallNameBlob
  | SmallDataBlob
  | UnknownType
  | DwordConversion
  | ReadKeyValueFullInformation
  | ReadKeyBasicInformation
  | StringConversion
  deriving DecidableEq, Repr

/-- The caller-facing decoded value sum type `RegValue` (`api.rs:13-26`).
The `String` variant stores the decoded unicode scalar values. -/
inductive RegValue
  | none
  | str (s : List Nat)
  | dword (n : Nat)
  | qword (n : Nat)
  | binary (b : List Nat)
  | unknown
  deriving DecidableEq, Repr

/-- UTF-16 decoding of a code-unit sequence into unicode scalar values, as
performed by `widestring::U16String::to_string` and
`OsString::from_wide(..).into_string()`: a high surrogate must be followed
by a low surrogate, an unpaired surrogate fails. -/
def utf16Decode : List Nat → Option (List Nat)
  | [] => some []
  | u :: rest =>
    if 0xD800 ≤ u ∧ u < 0xDC00 then
      match rest with
      | [] => Option.none
      | v :: rest2 =>
        if 0xDC00 ≤ v ∧ v < 0xE000 then
          (utf16Decode rest2).map
            (fun cs => (0x10000 + (u - 0xD800) * 0x400 + (v - 0xDC00)) :: cs)
        else Option.none
    else if 0xDC00 ≤ u ∧ u < 0xE000 then Option.none
    else (utf16Decode rest).map (fun cs => u :: cs)

/-- `RegValue::new` (`api.rs:41-136`): dispatch on the mapped type tag and
decode the trailing payload out of the raw record `data`. -/
def RegValue.new (info : KeyValueFullInformation) (data : List Nat) :
    Except RegValueError RegValue :=
  match dwordToValueType info.value_type with
  | .REG_NONE => .ok .none
  | .REG_SZ | .REG_EXPAND_SZ =>
      let tmp_data := (data.drop info.data_offset).take info.data_length
      if 0 < info.data_length ∧ info.data_length ≤ tmp_data.length then
        let wide_data := (u16ListOfBytes tmp_data).filter (fun c => c ≠ 0)
        match utf16Decode wide_data with
        | some s => .ok (.str s)
        | Option.none => .error .StringConversion
      else
        .ok (.str [])
  | .REG_DWORD =>
      if 4 ≤ data.length then
        match firstU32Le (data.drop info.data_offset) with
        | some n => .ok (.dword n)
        | Option.none => .error .DwordConversion
      else
        .error .UnknownType
  | .REG_DWORD_BIG_ENDIAN =>
      if 4 ≤ data.length then
        match firstU32Be (data.drop info.data_offset) with
        | some n => .ok (.dword n)
        | Option.none => .error .DwordConversion
      else
        .error .UnknownType
  | .REG_QWORD =>
      if 8 ≤ data.length then
        match firstU64Le (data.drop info.data_offset) with
        | some n => .ok (.qword n)
        | Option.none => .error .DwordConversion
      else
        .error .UnknownType
  | .REG_BINARY => .ok (.binary (data.drop info.data_offset))
  | _ => .ok .unknown

/-- Outcome of a decode step that can also panic (Rust slice indexing out
of range aborts instead of returning an error). -/
inductive DecodeOutcome (α : Type)
  | panic
  | err (e : RegValueError)
  | ok (a : α)
  deriving DecidableEq, Repr

/-- `KeyBasicInformation::new` (`api.rs:203-218`): the slice expression
`&data[size_of::<LARGE_INTEGER>()..]` panics when the buffer holds fewer
than 8 bytes; otherwise a cursor reads `title_index` and `name_length` as
native-endian `u32`, and a read that runs off the end of the buffer fails
with `ReadKeyBasicInformation`. -/
def KeyBasicInformation.new (data : List Nat) : DecodeOutcome KeyBasicInformation :=
  if 8 ≤ data.length then
    match readU32 (data.drop 8) with
    | some (ti, rest) =>
      match readU32 rest with
      | some (nl, _) => .ok ⟨ti, nl⟩
      | Option.none => .err .ReadKeyBasicInformation
    | Option.none => .err .ReadKeyBasicInformation
  else
    .panic

/-- `KeyValueFullInformation::new` (`api.rs:244-267`): a cursor reads five
native-endian `u32` fields; a read past the end of the buffer fails with
`ReadKeyValueFullInformation`. -/
def KeyValueFullInformation.new (data : List Nat) :
    Except RegValueError KeyValueFullInformation :=
  match readU32 data with
  | some (ti, r1) =>
    match readU32 r1 with
    | some (vt, r2) =>
      match readU32 r2 with
      | some (doff, r3) =>
        match readU32 r3 with
        | some (dlen, r4) =>
          match readU32 r4 with
          | some (nl, _) => .ok ⟨ti, vt, doff, dlen, nl⟩
          | Option.none => .error .ReadKeyValueFullInformation
        | Option.none => .error .ReadKeyValueFullInformation
      | Option.none => .error .ReadKeyValueFullInformation
    | Option.none => .error .ReadKeyValueFullInformation
  | Option.none => .error .ReadKeyValueFullInformation

/-- The in-place `std::ptr::read` of a `KeyValueFullInformation` from the
front of a buffer (`reg_value_iterator.rs:71-72`): five little-endian
`u32` fields at byte offsets 0, 4, 8, 12, 16; only ever invoked under the
`data.len() >= 20` guard. -/
def KeyValueFullInformation.ofBytes (data : List Nat) : KeyValueFullInformation :=
  ⟨le32At data 0, le32At data 4, le32At data 8, le32At data 12, le32At data 16⟩

/-- `RegValueItem` (`reg_value_iterator.rs:39-42`): the extracted value-name
code units and the decoded value. -/
structure RegValueItem where
  name : List Nat
  value : RegValue
  deriving DecidableEq, Repr

/-- `TryFrom<Vec<u8>> for RegValueItem` (`reg_value_iterator.rs:64-103`).
`ambient` models the memory adjacent to the buffer: the unchecked
`slice::from_raw_parts::<u16>` reads `name_length / 2` 16-bit units while
the guard only compares that unit count against the remaining *byte*
count, so the read can extend past `data` into adjacent memory. -/
def RegValueItem.tryFrom (data : List Nat) (ambient : List Nat) :
    Except RegValueError RegValueItem :=
  if 20 ≤ data.length then
    let value := KeyValueFullInformation.ofBytes data
    let length := value.name_length / 2
    let name_data := data.drop 20
    if length ≤ name_data.length then
      let name := ((u16ListOfBytes (name_data ++ ambient)).take length).filter
        (fun i => 0 < i)
      match RegValue.new value data with
      | .ok v => .ok ⟨name, v⟩
      | .error _ => .error .ValueData
    else
      .error .SmallNameBlob
  else
    .error .SmallDataBlob

/-- `RegValueItem::name` (`reg_value_iterator.rs:46-50`):
`OsString::from_wide` plus `into_string`, i.e. UTF-16 text conversion of
the stored code units; fails with `ConvertName` on invalid text. -/
def RegValueItem.nameText (item : RegValueItem) : Except RegValueError (List Nat) :=
  match utf16Decode item.name with
  | some s => .ok s
  | Option.none => .error .ConvertName

/-- The subkey-name extraction block of `RegKeyIterator::next`
(`reg_key_iterator.rs:48-66`): take `name_length` bytes after the 16-byte
header, reinterpret as 16-bit code units, keep the first
`name_length / 2` units; a short buffer yields the empty sequence.  No
code unit is filtered. -/
def keyIterExtractName (value : KeyBasicInformation) (data : List Nat) : List Nat :=
  let length := value.name_length / 2
  let d := (data.drop 16).take value.name_length
  if length ≤ d.length then
    (u16ListOfBytes d).take length
  else
    []

/-- `RegKeyIterator::next` (`reg_key_iterator.rs:42-88`).  The external
`enumerate_key` transport is modelled as a function from the cursor index
to an optional raw record; the produced item is the decoded subkey-name
scalar sequence (the `RegSubkey` name).  The cursor is incremented only
when header decode, name extraction and text conversion all succeed. -/
def keyIterNext (env : Nat → Option (List Nat)) (s : Nat) :
    DecodeOutcome (Nat × Option (List Nat)) :=
  match env s with
  | some data =>
    if 16 ≤ data.length then
      match KeyBasicInformation.new data with
      | .ok value =>
        match utf16Decode (keyIterExtractName value data) with
        | some str => .ok (s + 1, some str)
        | Option.none => .ok (s, Option.none)
      | .err _ => .ok (s, Option.none)
      | .panic => .panic
    else
      .ok (s, Option.none)
  | Option.none => .ok (s, Option.none)

/-- `RegValueIterator::next` (`reg_value_iterator.rs:27-35`): when the
transport returns a record the cursor is incremented *before* the record
is decoded, and a decode failure is turned into `none` by `.ok()`; when
the transport returns nothing the cursor is left unchanged. -/
def valIterNext (env : Nat → Option (List Nat)) (ambient : List Nat) (s : Nat) :
    Nat × Option RegValueItem :=
  match env s with
  | some data => (s + 1, (RegValueItem.tryFrom data ambient).toOption)
  | Option.none => (s, Option.none)

/-- The cursor of a value iterator after `n` pulls starting from state `s`. -/
def valIterStates (env : Nat → Option (List Nat)) (ambient : List Nat)
    (s : Nat) : Nat → Nat
  | 0 => s
  | n + 1 => (valIterNext env ambient (valIterStates env ambient s n)).1

/-- Initial cursor of both iterators (`RegValueIterator::new`,
`RegKeyIterator::new`): 0. -/
def iterInitialIndex : Nat := 0

/-- Encode a 16-bit code-unit sequence as bytes, little-endian. -/
def bytesOfU16 : List Nat → List Nat
  | [] => []
  | u :: rest => u % 256 :: u / 256 :: bytesOfU16 rest

/-- A value-full record whose header has `value_type = 0`,
`data_offset = data_length = 0` and `name_length = 2 * us.length`,
followed by the encoded name `us`. -/
def valueRecordWithName (us : List Nat) : List Nat :=
  0 :: 0 :: 0 :: 0 ::
  0 :: 0 :: 0 :: 0 ::
  0 :: 0 :: 0 :: 0 ::
  0 :: 0 :: 0 :: 0 ::
  (2 * us.length) % 256 :: (2 * us.length) / 256 % 256 ::
  (2 * us.length) / 65536 % 256 :: (2 * us.length) / 16777216 % 256 ::
  bytesOfU16 us

/-- A transport with a malformed record at index 0 (too short to decode)
and a well-formed record at index 1. -/
def env0 : Nat → Option (List Nat) :=
  fun i =>
    if i = 0 then some []
    else if i = 1 then some (List.replicate 20 0)
    else Option.none

/-- A transport whose record at index 0 is a key-basic record carrying the
name code units `[0x41, 0x0000]` (an embedded zero unit). -/
def envKeyZero : Nat → Option (List Nat) :=
  fun i =>
    if i = 0 then
      some (List.replicate 12 0 ++ [4, 0, 0, 0] ++ [0x41, 0, 0, 0])
    else Option.none

/-! ## Helper lemmas -/

theorem readU32_eq_none_iff (l : List Nat) :
    readU32 l = Option.none ↔ l.length < 4 := by
  rcases l with _ | ⟨a, _ | ⟨b, _ | ⟨c, _ | ⟨d, rest⟩⟩⟩⟩ <;> simp [readU32]

theorem readU32_some_length (l : List Nat) (n : Nat) (rest : List Nat)
    (h : readU32 l = some (n, rest)) : l.length = rest.length + 4 := by
  rcases l with _ | ⟨a, _ | ⟨b, _ | ⟨c, _ | ⟨d, r⟩⟩⟩⟩ <;>
    simp [readU32] at h <;> simp_all [List.length]

theorem firstU32Le_eq_none_iff (l : List Nat) :
    firstU32Le l = Option.none ↔ l.length < 4 := by
  rcases l with _ | ⟨a, _ | ⟨b, _ | ⟨c, _ | ⟨d, rest⟩⟩⟩⟩ <;> simp [firstU32Le]

theorem firstU32Be_eq_none_iff (l : List Nat) :
    firstU32Be l = Option.none ↔ l.length < 4 := by
  rcases l with _ | ⟨a, _ | ⟨b, _ | ⟨c, _ | ⟨d, rest⟩⟩⟩⟩ <;> simp [firstU32Be]

theorem firstU64Le_eq_none_iff (l : List Nat) :
    firstU64Le l = Option.none ↔ l.length < 8 := by
  rcases l with _ | ⟨a, _ | ⟨b, _ | ⟨c, _ | ⟨d, _ | ⟨e, _ | ⟨f, _ | ⟨g, _ | ⟨h, rest⟩⟩⟩⟩⟩⟩⟩⟩ <;>
    simp [firstU64Le]

theorem firstU32Le_drop (l : List Nat) (i : Nat) (h : i + 4 ≤ l.length) :
    firstU32Le (l.drop i) = some (le32At l i) := by
  induction i generalizing l with
  | zero =>
      rcases l with _ | ⟨a, _ | ⟨b, _ | ⟨c, _ | ⟨d, rest⟩⟩⟩⟩ <;>
        simp at h <;> simp [firstU32Le, le32At, List.getD]
  | succ i ih =>
      rcases l with _ | ⟨x, xs⟩
      · simp at h
      · have hx : i + 4 ≤ xs.length := by simp at h; omega
        have := ih xs hx
        simpa [le32At, List.getD_cons_succ] using this

theorem u16ListOfBytes_bytesOfU16 (us : List Nat) :
    u16ListOfBytes (bytesOfU16 us) = us := by
  induction us with
  | nil => rfl
  | cons u rest ih =>
      have : u % 256 + 256 * (u / 256) = u := Nat.mod_add_div u 256
      simp [bytesOfU16, u16ListOfBytes, ih, this]

theorem bytesOfU16_length (us : List Nat) :
    (bytesOfU16 us).length = 2 * us.length := by
  induction us with
  | nil => rfl
  | cons u rest ih => simp [bytesOfU16, ih]; omega

theorem utf16Decode_pos (us : List Nat) (hpos : ∀ u ∈ us, 0 < u) :
    ∀ s, utf16Decode us = some s → ∀ c ∈ s, 0 < c := by
  induction us using utf16Decode.induct with
  | case1 =>
      intro s h c hc
      simp [utf16Decode] at h
      subst h
      cases hc
  | case2 u hsur =>
      intro s h
      simp [utf16Decode, hsur] at h
  | case3 u hsur v rest2 hlow ih =>
      intro s h c hc
      simp [utf16Decode, hsur, hlow, Option.map_eq_some'] at h
      obtain ⟨cs, hcs, hs⟩ := h
      subst hs
      rcases List.mem_cons.mp hc with h1 | hmem
      · omega
      · exact ih (fun x hx => hpos x (by simp [hx])) cs hcs c hmem
  | case4 u hsur v rest2 hnlow =>
      intro s h
      simp [utf16Decode, hsur, hnlow] at h
  | case5 u rest hnsur hlow =>
      intro s h
      rcases rest with _ | ⟨v, rest2⟩ <;>
        simp [utf16Decode, hnsur, hlow] at h
  | case6 u rest hnsur hnlow ih =>
      intro s h c hc
      rcases rest with _ | ⟨v, rest2⟩
      · simp [utf16Decode, hnsur, hnlow] at h
        subst h
        rcases List.mem_cons.mp hc with h1 | hmem
        · rw [h1]; exact hpos u (by simp)
        · cases hmem
      · simp [utf16Decode, hnsur, hnlow, Option.map_eq_some'] at h
        obtain ⟨cs, hcs, hs⟩ := h
        subst hs
        rcases List.mem_cons.mp hc with h1 | hmem
        · rw [h1]; exact hpos u (by simp)
        · exact ih (fun x hx => hpos x (by simp [hx])) cs hcs c hmem

theorem tryFrom_ok_name_pos (data ambient : List Nat) (item : RegValueItem)
    (h : RegValueItem.tryFrom data ambient = .ok item) :
    ∀ u ∈ item.name, 0 < u := by
  unfold RegValueItem.tryFrom at h
  split at h
  · dsimp only at h
    split at h
    · split at h
      · rename_i v heq
        injection h with h
        subst h
        intro u hu
        exact of_decide_eq_true (List.mem_filter.mp hu).2
      · exact absurd h (by simp)
    · exact absurd h (by simp)
  · exact absurd h (by simp)

theorem dwordToValueType_ge12 (t : Nat) (h : 12 ≤ t) :
    dwordToValueType t = .REG_NONE := by
  obtain ⟨k, rfl⟩ : ∃ k, t = k + 12 := ⟨t - 12, by omega⟩
  rfl

/-! ## Claim theorems -/

/-- Claim C1, counterexample: the unrecognized numeric tag 99 decodes to
`RegValue::None`, not to `RegValue::Unknown`, because
`Into<ValueType> for DWORD` maps every unlisted tag to `REG_NONE`. -/
theorem C1_counterexample :
    RegValue.new ⟨0, 99, 0, 0, 0⟩ [] = .ok .none ∧
    RegValue.none ≠ RegValue.unknown :=
  ⟨rfl, by decide⟩

/-- Claim C1, amended: a numeric tag outside the recognized set 0..11 maps
to `REG_NONE` and always decodes to `Ok(RegValue::None)` — never an error
and never any other variant; the `Unknown` variant is produced exactly for
the recognized-but-unsupported tags 6..10. -/
theorem C1_amended :
    (∀ (info : KeyValueFullInformation) (data : List Nat),
      12 ≤ info.value_type → RegValue.new info data = .ok .none) ∧
    (∀ (info : KeyValueFullInformation) (data : List Nat),
      6 ≤ info.value_type → info.value_type ≤ 10 →
      RegValue.new info data = .ok .unknown) := by
  constructor
  · intro info data h
    unfold RegValue.new
    rw [dwordToValueType_ge12 _ h]
  · intro info data h1 h2
    unfold RegValue.new
    interval_cases h : info.value_type <;> rfl

/-- Claim C1 amended, witness at tags 99 and 7. -/
theorem C1_amended_witness :
    RegValue.new ⟨0, 99, 0, 0, 0⟩ [1, 2, 3] = .ok .none ∧
    RegValue.new ⟨0, 7, 0, 0, 0⟩ [1, 2, 3] = .ok .unknown :=
  ⟨C1_amended.1 ⟨0, 99, 0, 0, 0⟩ [1, 2, 3] (by decide),
   C1_amended.2 ⟨0, 7, 0, 0, 0⟩ [1, 2, 3] (by decide) (by decide)⟩

/-- Claim C6, counterexample: a DWORD-tagged value whose declared payload
region is empty (`data_length = 0`, so fewer than 4 bytes) nevertheless
decodes successfully — the implementation ignores `data_length` and reads
4 bytes starting at `data_offset`. -/
theorem C6_counterexample :
    ((([0x39, 0x05, 0, 0] : List Nat).drop 0).take 0).length < 4 ∧
    RegValue.new ⟨0, 4, 0, 0, 0⟩ [0x39, 0x05, 0, 0] = .ok (.dword 1337) :=
  ⟨by decide, rfl⟩

/-- Claim C6, amended: DWORD decoding ignores `data_length`: when the whole
buffer is shorter than 4 bytes it fails with `UnknownType`; when at least
4 bytes follow `data_offset` it succeeds with the little-endian (native)
`u32` at `data_offset`; when the buffer has at least 4 bytes but fewer
than 4 follow `data_offset` it fails with `DwordConversion`. -/
theorem C6_amended (info : KeyValueFullInformation) (data : List Nat)
    (htag : dwordToValueType info.value_type = .REG_DWORD) :
    (data.length < 4 → RegValue.new info data = .error .UnknownType) ∧
    (4 ≤ data.length → info.data_offset + 4 ≤ data.length →
      RegValue.new info data = .ok (.dword (le32At data info.data_offset))) ∧
    (4 ≤ data.length → data.length < info.data_offset + 4 →
      RegValue.new info data = .error .DwordConversion) := by
  refine ⟨?_, ?_, ?_⟩ <;> intro h1
  · unfold RegValue.new
    simp only [htag]
    rw [if_neg (by omega)]
  · intro h2
    unfold RegValue.new
    simp only [htag]
    rw [if_pos h1, firstU32Le_drop data _ h2]
  · intro h2
    unfold RegValue.new
    simp only [htag]
    rw [if_pos h1,
      (firstU32Le_eq_none_iff _).mpr (by rw [List.length_drop]; omega)]

/-- Claim C6 amended, witness: the spec's own DWORD test vector. -/
theorem C6_amended_witness :
    RegValue.new ⟨0, 4, 0, 4, 0⟩ [0x39, 0x05, 0, 0] = .ok (.dword 1337) := by
  have h := (C6_amended ⟨0, 4, 0, 4, 0⟩ [0x39, 0x05, 0, 0] rfl).2.1
    (by decide) (by decide)
  simpa [le32At] using h

/-- Claim C7, counterexample: a BINARY value with `data_length = 2` in a
4-byte buffer decodes to all 4 bytes from `data_offset` to the end of the
buffer, not to the 2-byte region the header declares. -/
theorem C7_counterexample :
    RegValue.new ⟨0, 3, 0, 2, 0⟩ [1, 2, 3, 4] = .ok (.binary [1, 2, 3, 4]) ∧
    ([1, 2, 3, 4] : List Nat) ≠ [1, 2] :=
  ⟨rfl, by decide⟩

/-- Claim C7, amended: BINARY decoding always succeeds and copies
`raw[data_offset ..]` — every byte from the offset to the end of the
buffer, ignoring `data_length` (empty when the offset is past the end). -/
theorem C7_amended (info : KeyValueFullInformation) (data : List Nat)
    (htag : dwordToValueType info.value_type = .REG_BINARY) :
    RegValue.new info data = .ok (.binary (data.drop info.data_offset)) := by
  unfold RegValue.new
  simp only [htag]

/-- Claim C7 amended, witness at offset 1 of a 3-byte buffer. -/
theorem C7_amended_witness :
    RegValue.new ⟨0, 3, 1, 0, 0⟩ [9, 8, 7] = .ok (.binary [8, 7]) :=
  C7_amended ⟨0, 3, 1, 0, 0⟩ [9, 8, 7] rfl

/-- Claim C9: an SZ- or EXPAND_SZ-tagged value with `data_length = 0`, or
whose available payload slice is shorter than `data_length` claims,
decodes to the empty string and never to an error. -/
theorem C9_sz_short_ok (info : KeyValueFullInformation) (data : List Nat)
    (htag : dwordToValueType info.value_type = .REG_SZ ∨
      dwordToValueType info.value_type = .REG_EXPAND_SZ)
    (hshort : info.data_length = 0 ∨
      ((data.drop info.data_offset).take info.data_length).length <
        info.data_length) :
    RegValue.new info data = .ok (.str []) := by
  have hcond : ¬(0 < info.data_length ∧ info.data_length ≤
      ((data.drop info.data_offset).take info.data_length).length) := by
    rcases hshort with h | h <;> omega
  rcases htag with h | h <;>
    · unfold RegValue.new
      simp only [h]
      rw [if_neg hcond]

/-- Claim C9, witness: SZ tag with `data_length = 0`. -/
theorem C9_witness :
    RegValue.new ⟨0, 1, 0, 0, 0⟩ [] = .ok (.str []) :=
  C9_sz_short_ok ⟨0, 1, 0, 0, 0⟩ [] (Or.inl rfl) (Or.inl rfl)

theorem keyBasicNew_ne_panic (data : List Nat) (h : 8 ≤ data.length) :
    KeyBasicInformation.new data ≠ .panic := by
  unfold KeyBasicInformation.new
  rw [if_pos h]
  split
  next ti rest h1 =>
    split
    next nl r h2 => simp
    next h2 => simp
  next h1 => simp

/-- Claim C8, counterexample: `KeyBasicInformation::new` on a 3-byte buffer
panics (the slice `&data[8..]` is out of range) instead of failing with a
truncation error. -/
theorem C8_counterexample :
    KeyBasicInformation.new [0, 0, 0] = .panic ∧
    ([0, 0, 0] : List Nat).length < 16 :=
  ⟨rfl, by decide⟩

/-- Claim C8, amended: value-full-record decoding rejects every buffer
shorter than its 20-byte header with `SmallDataBlob` before any
unchecked read, and the cursor-based value-full header decoder fails with
a read error; the key-basic decoder fails with a read error only for
buffers of 8..15 bytes and panics below 8 bytes, but its sole caller (the
key iterator) guards with a 16-byte length check, so the iterator itself
never panics. -/
theorem C8_amended :
    (∀ data ambient, data.length < 20 →
      RegValueItem.tryFrom data ambient = .error .SmallDataBlob) ∧
    (∀ data : List Nat, data.length < 20 →
      KeyValueFullInformation.new data = .error .ReadKeyValueFullInformation) ∧
    (∀ data : List Nat, 8 ≤ data.length → data.length < 16 →
      KeyBasicInformation.new data = .err .ReadKeyBasicInformation) ∧
    (∀ data : List Nat, data.length < 8 →
      KeyBasicInformation.new data = .panic) ∧
    (∀ (env : Nat → Option (List Nat)) (s : Nat),
      keyIterNext env s ≠ .panic) := by
  refine ⟨?_, ?_, ?_, ?_, ?_⟩
  · intro data ambient h
    unfold RegValueItem.tryFrom
    rw [if_neg (by omega)]
  · intro data h
    unfold KeyValueFullInformation.new
    split
    next n1 r1 h1 =>
      have l1 := readU32_some_length _ _ _ h1
      split
      next n2 r2 h2 =>
        have l2 := readU32_some_length _ _ _ h2
        split
        next n3 r3 h3 =>
          have l3 := readU32_some_length _ _ _ h3
          split
          next n4 r4 h4 =>
            have l4 := readU32_some_length _ _ _ h4
            split
            next n5 r5 h5 =>
              have l5 := readU32_some_length _ _ _ h5
              omega
            next h5 => rfl
          next h4 => rfl
        next h3 => rfl
      next h2 => rfl
    next h1 => rfl
  · intro data h8 h16
    unfold KeyBasicInformation.new
    rw [if_pos h8]
    have ld : (data.drop 8).length = data.length - 8 := List.length_drop 8 data
    split
    next ti rest h1 =>
      have l1 := readU32_some_length _ _ _ h1
      split
      next nl r h2 =>
        have l2 := readU32_some_length _ _ _ h2
        omega
      next h2 => rfl
    next h1 => rfl
  · intro data h
    unfold KeyBasicInformation.new
    rw [if_neg (by omega)]
  · intro env s
    unfold keyIterNext
    cases henv : env s with
    | none => simp
    | some data =>
      dsimp only
      by_cases hlen : 16 ≤ data.length
      · rw [if_pos hlen]
        cases hb : KeyBasicInformation.new data with
        | panic => exact absurd hb (keyBasicNew_ne_panic data (by omega))
        | err e => simp
        | ok value =>
          cases hu : utf16Decode (keyIterExtractName value data) <;> simp [hu]
      · rw [if_neg hlen]
        simp

/-- Claim C8 amended, witness instances at concrete buffers. -/
theorem C8_amended_witness :
    RegValueItem.tryFrom [1] [] = .error .SmallDataBlob ∧
    KeyValueFullInformation.new [0, 0, 0, 0, 0] =
      .error .ReadKeyValueFullInformation ∧
    KeyBasicInformation.new (List.replicate 12 0) =
      .err .ReadKeyBasicInformation ∧
    KeyBasicInformation.new [7] = .panic ∧
    keyIterNext (fun _ => Option.none) 0 ≠ .panic :=
  ⟨C8_amended.1 [1] [] (by decide),
   C8_amended.2.1 [0, 0, 0, 0, 0] (by decide),
   C8_amended.2.2.1 (List.replicate 12 0) (by simp) (by simp),
   C8_amended.2.2.2.1 [7] (by decide),
   C8_amended.2.2.2.2 (fun _ => Option.none) 0⟩

/-- Claim C2, counterexample: an SZ-tagged value whose header claims
`data_offset + data_length = 102` in a 4-byte buffer decodes successfully
to the empty string — not to a length-mismatch error. -/
theorem C2_counterexample :
    RegValue.new ⟨0, 1, 100, 2, 0⟩ [0, 0, 0, 0] = .ok (.str []) ∧
    ([0, 0, 0, 0] : List Nat).length < 100 + 2 :=
  ⟨rfl, by decide⟩

/-- Claim C2, amended: when `data_offset + data_length` exceeds the buffer
length, decoding never reads out of bounds (all slicing truncates at the
buffer's end) and never panics, but only the numeric tags can fail:
SZ/EXPAND_SZ yield the empty string, BINARY yields the suffix from
`data_offset`, NONE and the unsupported tags succeed, and
DWORD/DWORD_BE/QWORD fail with `UnknownType` (buffer shorter than the
scalar) or `DwordConversion` (fewer than 4/8 bytes after the offset) yet
still succeed whenever enough bytes follow the offset. -/
theorem C2_amended (info : KeyValueFullInformation) (data : List Nat)
    (hover : data.length < info.data_offset + info.data_length) :
    ((dwordToValueType info.value_type = .REG_SZ ∨
      dwordToValueType info.value_type = .REG_EXPAND_SZ) →
      RegValue.new info data = .ok (.str [])) ∧
    (dwordToValueType info.value_type = .REG_BINARY →
      RegValue.new info data = .ok (.binary (data.drop info.data_offset))) ∧
    (dwordToValueType info.value_type = .REG_NONE →
      RegValue.new info data = .ok .none) ∧
    ((dwordToValueType info.value_type = .REG_DWORD ∨
      dwordToValueType info.value_type = .REG_DWORD_BIG_ENDIAN) →
      (data.length < 4 → RegValue.new info data = .error .UnknownType) ∧
      (4 ≤ data.length → data.length < info.data_offset + 4 →
        RegValue.new info data = .error .DwordConversion) ∧
      (info.data_offset + 4 ≤ data.length →
        ∃ n, RegValue.new info data = .ok (.dword n))) ∧
    (dwordToValueType info.value_type = .REG_QWORD →
      (data.length < 8 → RegValue.new info data = .error .UnknownType) ∧
      (8 ≤ data.length → data.length < info.data_offset + 8 →
        RegValue.new info data = .error .DwordConversion) ∧
      (info.data_offset + 8 ≤ data.length →
        ∃ n, RegValue.new info data = .ok (.qword n))) ∧
    ((dwordToValueType info.value_type = .REG_LINK ∨
      dwordToValueType info.value_type = .REG_MULTI_SZ ∨
      dwordToValueType info.value_type = .REG_RESOURCE_LIST ∨
      dwordToValueType info.value_type = .REG_FULL_RESOURCE_DESCRIPTOR ∨
      dwordToValueType info.value_type = .REG_RESOURCE_REQUIREMENTS_LIST) →
      RegValue.new info data = .ok .unknown) := by
  refine ⟨?_, ?_, ?_, ?_, ?_, ?_⟩
  · intro htag
    have hcond : ¬(0 < info.data_length ∧ info.data_length ≤
        ((data.drop info.data_offset).take info.data_length).length) := by
      rw [List.length_take, List.length_drop]
      omega
    rcases htag with h | h <;>
      · unfold RegValue.new
        simp only [h]
        rw [if_neg hcond]
  · intro h
    unfold RegValue.new
    simp only [h]
  · intro h
    unfold RegValue.new
    simp only [h]
  · intro htag
    refine ⟨?_, ?_, ?_⟩
    · intro h4
      rcases htag with h | h <;>
        · unfold RegValue.new
          simp only [h]
          rw [if_neg (by omega)]
    · intro h4 hoff
      have hnone4 : (data.drop info.data_offset).length < 4 := by
        rw [List.length_drop]; omega
      rcases htag with h | h
      · unfold RegValue.new
        simp only [h]
        rw [if_pos h4, (firstU32Le_eq_none_iff _).mpr hnone4]
      · unfold RegValue.new
        simp only [h]
        rw [if_pos h4, (firstU32Be_eq_none_iff _).mpr hnone4]
    · intro hoff
      have h4 : 4 ≤ data.length := by omega
      have hlen4 : ¬((data.drop info.data_offset).length < 4) := by
        rw [List.length_drop]; omega
      rcases htag with h | h
      · exact ⟨le32At data info.data_offset, by
          unfold RegValue.new
          simp only [h]
          rw [if_pos h4, firstU32Le_drop data _ hoff]⟩
      · cases hbe : firstU32Be (data.drop info.data_offset) with
        | none => exact absurd ((firstU32Be_eq_none_iff _).mp hbe) hlen4
        | some n =>
          exact ⟨n, by
            unfold RegValue.new
            simp only [h]
            rw [if_pos h4, hbe]⟩
  · intro htag
    refine ⟨?_, ?_, ?_⟩
    · intro h8
      unfold RegValue.new
      simp only [htag]
      rw [if_neg (by omega)]
    · intro h8 hoff
      have hnone8 : (data.drop info.data_offset).length < 8 := by
        rw [List.length_drop]; omega
      unfold RegValue.new
      simp only [htag]
      rw [if_pos h8, (firstU64Le_eq_none_iff _).mpr hnone8]
    · intro hoff
      have h8 : 8 ≤ data.length := by omega
      have hlen8 : ¬((data.drop info.data_offset).length < 8) := by
        rw [List.length_drop]; omega
      cases hq : firstU64Le (data.drop info.data_offset) with
      | none => exact absurd ((firstU64Le_eq_none_iff _).mp hq) hlen8
      | some n =>
        exact ⟨n, by
          unfold RegValue.new
          simp only [htag]
          rw [if_pos h8, hq]⟩
  · intro htag
    rcases htag with h | h | h | h | h <;>
      · unfold RegValue.new
        simp only [h]

/-- Claim C2 amended, witness: out-of-range SZ decodes to the empty string
and an out-of-range DWORD fails with `DwordConversion`. -/
theorem C2_amended_witness :
    RegValue.new ⟨0, 2, 100, 2, 0⟩ [0, 0, 0, 0] = .ok (.str []) ∧
    RegValue.new ⟨0, 4, 2, 100, 0⟩ [0, 0, 0, 0] = .error .DwordConversion :=
  ⟨(C2_amended ⟨0, 2, 100, 2, 0⟩ [0, 0, 0, 0] (by decide)).1 (Or.inr rfl),
   (C2_amended ⟨0, 4, 2, 100, 0⟩ [0, 0, 0, 0] (by decide)).2.2.2.1
     (Or.inl rfl) |>.2.1 (by decide) (by decide)⟩

/-- Claim C10: every successfully constructed `RegValueItem` stores a name
code-unit sequence with no zero units (the constructor filters them), and
`name()` on success therefore never yields a text containing U+0000. -/
theorem C10_name_no_zero (data ambient : List Nat) (item : RegValueItem)
    (h : RegValueItem.tryFrom data ambient = .ok item) :
    (∀ u ∈ item.name, 0 < u) ∧
    (∀ s, RegValueItem.nameText item = .ok s → ∀ c ∈ s, 0 < c) := by
  have h1 := tryFrom_ok_name_pos data ambient item h
  refine ⟨h1, ?_⟩
  intro s hs c hc
  unfold RegValueItem.nameText at hs
  cases hu : utf16Decode item.name with
  | none => rw [hu] at hs; cases hs
  | some s2 =>
    rw [hu] at hs
    injection hs with hs
    exact utf16Decode_pos item.name h1 s (by rw [hu, hs]) c hc

/-- Claim C10, witness: a record carrying the single name unit 0x41. -/
theorem C10_witness :
    RegValueItem.tryFrom (valueRecordWithName [0x41]) [] =
      .ok ⟨[0x41], .none⟩ ∧
    (∀ u ∈ ([0x41] : List Nat), 0 < u) :=
  ⟨rfl,
   (C10_name_no_zero (valueRecordWithName [0x41]) [] ⟨[0x41], .none⟩ rfl).1⟩

/-- Claim C3, counterexample: the value iterator's pull at index 0 returns
no item (the record `[]` fails to decode) yet advances the cursor, and
the very next pull produces an item — a decode failure is a skipped
record, not exhaustion. -/
theorem C3_counterexample :
    valIterNext env0 [] 0 = (1, Option.none) ∧
    valIterNext env0 [] 1 = (2, some ⟨[], .none⟩) :=
  ⟨rfl, rfl⟩

/-- Claim C3, amended: transport exhaustion is terminal for the value
iterator — when the transport returns nothing the cursor is unchanged, so
with a deterministic transport all later pulls also produce nothing; the
key iterator never advances on a pull that produces no item (so it re-pulls
the same record); but the value iterator advances its cursor on every pull
for which the transport returned a record, even when decoding fails, so a
decode failure skips that record and later records are still produced. -/
theorem C3_amended :
    (∀ (env : Nat → Option (List Nat)) (amb : List Nat) (idx : Nat),
      env idx = Option.none → valIterNext env amb idx = (idx, Option.none)) ∧
    (∀ (env : Nat → Option (List Nat)) (amb : List Nat) (idx n : Nat),
      env idx = Option.none → valIterStates env amb idx n = idx) ∧
    (∀ (env : Nat → Option (List Nat)) (s : Nat) (p : Nat × Option (List Nat)),
      keyIterNext env s = .ok p → p.2 = Option.none → p.1 = s) ∧
    (∀ (env : Nat → Option (List Nat)) (amb : List Nat) (idx : Nat)
      (data : List Nat), env idx = some data →
      (valIterNext env amb idx).1 = idx + 1) := by
  refine ⟨?_, ?_, ?_, ?_⟩
  · intro env amb idx h
    unfold valIterNext
    rw [h]
  · intro env amb idx n h
    induction n with
    | zero => rfl
    | succ n ih =>
        show (valIterNext env amb (valIterStates env amb idx n)).1 = idx
        rw [ih]
        unfold valIterNext
        rw [h]
  · intro env s p hk hn
    unfold keyIterNext at hk
    cases henv : env s with
    | none =>
        rw [henv] at hk
        injection hk with hk
        rw [← hk]
    | some data =>
        rw [henv] at hk
        dsimp only at hk
        by_cases hlen : 16 ≤ data.length
        · rw [if_pos hlen] at hk
          cases hb : KeyBasicInformation.new data with
          | panic => rw [hb] at hk; cases hk
          | err e =>
              rw [hb] at hk
              injection hk with hk
              rw [← hk]
          | ok value =>
              rw [hb] at hk
              dsimp only at hk
              cases hu : utf16Decode (keyIterExtractName value data) with
              | none =>
                  rw [hu] at hk
                  injection hk with hk
                  rw [← hk]
              | some str =>
                  rw [hu] at hk
                  injection hk with hk
                  rw [← hk] at hn
                  cases hn
        · rw [if_neg hlen] at hk
          injection hk with hk
          rw [← hk]
  · intro env amb idx data h
    unfold valIterNext
    rw [h]

/-- Claim C3 amended, witness instances. -/
theorem C3_amended_witness :
    valIterNext (fun _ => Option.none) [] 5 = (5, Option.none) ∧
    valIterStates (fun _ => Option.none) [] 4 3 = 4 ∧
    ((7 : Nat), (Option.none : Option (List Nat))).1 = 7 ∧
    (valIterNext env0 [] 0).1 = 0 + 1 :=
  ⟨C3_amended.1 (fun _ => Option.none) [] 5 rfl,
   C3_amended.2.1 (fun _ => Option.none) [] 4 3 rfl,
   C3_amended.2.2.1 (fun _ => Option.none) 7 (7, Option.none) rfl rfl,
   C3_amended.2.2.2 env0 [] 0 [] rfl⟩

/-- Claim C4, counterexample: the transport returns the record `[]` at
index 0, its decode fails, yet the value iterator's cursor is incremented
to 1 — the cursor is not incremented "only after a successful decode". -/
theorem C4_counterexample :
    env0 0 = some [] ∧
    RegValueItem.tryFrom [] [] = .error .SmallDataBlob ∧
    valIterNext env0 [] 0 = (1, Option.none) :=
  ⟨rfl, rfl, rfl⟩

/-- Claim C4, amended: both cursors start at 0 and never decrease (never
reset); the key iterator increments exactly on pulls that produce an item
(i.e. after a fully successful decode); but the value iterator increments
on every pull for which the transport returned a record — also when the
record's decode fails — and leaves the cursor unchanged only when the
transport signals no more entries. -/
theorem C4_amended :
    iterInitialIndex = 0 ∧
    (∀ (env : Nat → Option (List Nat)) (amb : List Nat) (s : Nat),
      s ≤ (valIterNext env amb s).1) ∧
    (∀ (env : Nat → Option (List Nat)) (amb : List Nat) (s : Nat)
      (data : List Nat), env s = some data →
      (valIterNext env amb s).1 = s + 1) ∧
    (∀ (env : Nat → Option (List Nat)) (amb : List Nat) (s : Nat),
      env s = Option.none → (valIterNext env amb s).1 = s) ∧
    (∀ (env : Nat → Option (List Nat)) (s : Nat) (p : Nat × Option (List Nat)),
      keyIterNext env s = .ok p →
      (p.2.isSome → p.1 = s + 1) ∧ (p.2 = Option.none → p.1 = s)) := by
  refine ⟨rfl, ?_, ?_, ?_, ?_⟩
  · intro env amb s
    unfold valIterNext
    cases h : env s <;> simp
  · intro env amb s data h
    unfold valIterNext
    rw [h]
  · intro env amb s h
    unfold valIterNext
    rw [h]
  · intro env s p hk
    unfold keyIterNext at hk
    cases henv : env s with
    | none =>
        rw [henv] at hk
        injection hk with hk
        rw [← hk]
        simp
    | some data =>
        rw [henv] at hk
        dsimp only at hk
        by_cases hlen : 16 ≤ data.length
        · rw [if_pos hlen] at hk
          cases hb : KeyBasicInformation.new data with
          | panic => rw [hb] at hk; cases hk
          | err e =>
              rw [hb] at hk
              injection hk with hk
              rw [← hk]
              simp
          | ok value =>
              rw [hb] at hk
              dsimp only at hk
              cases hu : utf16Decode (keyIterExtractName value data) with
              | none =>
                  rw [hu] at hk
                  injection hk with hk
                  rw [← hk]
                  simp
              | some str =>
                  rw [hu] at hk
                  injection hk with hk
                  rw [← hk]
                  simp
        · rw [if_neg hlen] at hk
          injection hk with hk
          rw [← hk]
          simp

/-- Claim C4 amended, witness instances. -/
theorem C4_amended_witness :
    iterInitialIndex = 0 ∧
    (0 : Nat) ≤ (valIterNext env0 [] 0).1 ∧
    (valIterNext env0 [] 0).1 = 0 + 1 ∧
    (valIterNext (fun _ => Option.none) [] 9).1 = 9 ∧
    (((1 : Nat), some [0x41, 0]).2.isSome →
      ((1 : Nat), some [(0x41 : Nat), 0]).1 = 0 + 1) :=
  ⟨C4_amended.1,
   C4_amended.2.1 env0 [] 0,
   C4_amended.2.2.1 env0 [] 0 [] rfl,
   C4_amended.2.2.2.1 (fun _ => Option.none) [] 9 rfl,
   (C4_amended.2.2.2.2 envKeyZero 0 (1, some [0x41, 0]) rfl).1⟩

/-- Claim C5, counterexample: the roles are the opposite of the claim's.
The key iterator extracts the subkey name `[0x41, 0x0000]` with the zero
code unit intact (it filters nothing), while the value-name extraction of
`TryFrom` drops the interior zero from `[0x41, 0x0000, 0x42]`, which is
not lossless. -/
theorem C5_counterexample :
    keyIterNext envKeyZero 0 = .ok (1, some [0x41, 0]) ∧
    (0 : Nat) ∈ [(0x41 : Nat), 0] ∧
    RegValueItem.tryFrom
      (List.replicate 16 0 ++ [6, 0, 0, 0] ++ [0x41, 0, 0, 0, 0x42, 0]) [] =
      .ok ⟨[0x41, 0x42], .none⟩ :=
  ⟨rfl, by decide, rfl⟩

/-- Claim C5, amended: it is the value-name extraction that filters out all
zero code units (interior and trailing), while subkey-name extraction
preserves the extracted code-unit sequence losslessly — encoding any
16-bit unit sequence (zeros included) and extracting it through the key
iterator's name block reproduces it exactly, whereas building a
value-full record around the same sequence yields an item whose stored
name is the sequence with every zero unit removed. -/
theorem C5_amended (us : List Nat) (hu : ∀ u ∈ us, u < 65536)
    (hL : us.length < 2 ^ 31) :
    keyIterExtractName ⟨0, 2 * us.length⟩
      (List.replicate 16 0 ++ bytesOfU16 us) = us ∧
    RegValueItem.tryFrom (valueRecordWithName us) [] =
      .ok ⟨us.filter (fun u => 0 < u), .none⟩ := by
  have hblen : (bytesOfU16 us).length = 2 * us.length := bytesOfU16_length us
  have hdiv : 2 * us.length / 2 = us.length := by omega
  constructor
  · unfold keyIterExtractName
    dsimp only
    have hdrop : (List.replicate 16 (0 : Nat) ++ bytesOfU16 us).drop 16 =
        bytesOfU16 us := by
      simpa using List.drop_left (List.replicate 16 (0 : Nat)) (bytesOfU16 us)
    rw [hdrop, List.take_of_length_le (by omega), hdiv, if_pos (by omega),
      u16ListOfBytes_bytesOfU16, List.take_length]
  · have hof : KeyValueFullInformation.ofBytes (valueRecordWithName us) =
        ⟨0, 0, 0, 0, 2 * us.length % 256 + 256 * (2 * us.length / 256 % 256 +
          256 * (2 * us.length / 65536 % 256 +
            256 * (2 * us.length / 16777216 % 256)))⟩ := rfl
    have hnl : 2 * us.length % 256 + 256 * (2 * us.length / 256 % 256 +
        256 * (2 * us.length / 65536 % 256 +
          256 * (2 * us.length / 16777216 % 256))) = 2 * us.length := by
      omega
    have hdl : (valueRecordWithName us).length = 20 + 2 * us.length := by
      simp [valueRecordWithName]
      omega
    have hdrop20 : (valueRecordWithName us).drop 20 = bytesOfU16 us := rfl
    unfold RegValueItem.tryFrom
    rw [if_pos (by omega)]
    rw [hof]
    dsimp only
    rw [hnl, hdiv, hdrop20, if_pos (by omega), List.append_nil,
      u16ListOfBytes_bytesOfU16, List.take_length]
    rfl

/-- Claim C5 amended, witness at the unit sequence `[0x41, 0, 0x42]`. -/
theorem C5_amended_witness :
    keyIterExtractName ⟨0, 6⟩
      (List.replicate 16 0 ++ bytesOfU16 [0x41, 0, 0x42]) = [0x41, 0, 0x42] ∧
    RegValueItem.tryFrom (valueRecordWithName [0x41, 0, 0x42]) [] =
      .ok ⟨[0x41, 0x42], .none⟩ :=
  C5_amended [0x41, 0, 0x42] (by decide) (by decide)

end WinRegNt
